import Mathlib

/-!
Shallow embedding of the rhttp library: a fluent request-building and
response-handling layer over an injectable HTTP transport.

Modelling conventions:
- Go pointers that may be nil are `Option`; a `(value, error)` pair is a
  Lean pair of `Option`s.
- `io.ReadCloser` bodies are `BodyStream`: either readable content or a
  stream whose `ReadAll` fails with a message.
- External collaborators (the `net/http` request constructor and the
  injected transport interface) are supplied through an `Env` record, so
  theorems quantify over every possible behaviour of those collaborators.
- The transport interface value stored in a Client/request is a
  `TransportRef` (nil interface, the lazily created default client, or a
  caller-supplied implementation identified by a tag); its `Do` behaviour
  is given by `Env.ciDo`, modelling dynamic dispatch.
- The JSON encoder applied to a request-body value is represented by its
  outcome (`Except GoError String`), since JSON marshalling is an external
  primitive; likewise the JSON decoder for a fixed destination is a
  function from the body stream to an optional error.
- Go error values are `GoError`: a typed rhttp `Error`, a plain formatted
  error, or a `fmt.Errorf`-with-`%w` wrapper around an inner error.
- The repository contains two evolving variants of the builder: the
  unexported `request`/`result` variant and an exported `Request`/`Result`
  variant (which adds `StreamResponse`, routes `RawBytes` through it, and
  whose `Prepare` returns a nil handle on an already-failed request).
  Both are embedded below; the exported variant reuses the structurally
  identical record types via `abbrev`.
-/

namespace Rhttp

/-- Model of an `io.ReadCloser` body: either it reads to completion with
the given data, or reading it fails with the given error message. -/
inductive BodyStream where
  | content (data : String)
  | failing (emsg : String)
deriving DecidableEq, Repr

/-- The rhttp `Error` type from error.go: an HTTP status code plus a
message. -/
structure Error where
  StatusCode : Int
  Message : String
deriving DecidableEq, Repr

/-- A Go `error` value as it appears in this library: a typed rhttp
`Error`, a plain `fmt.Errorf` message, or a `fmt.Errorf("...: %w", err)`
wrapper around an inner error. -/
inductive GoError where
  | typed (e : Error)
  | generic (msg : String)
  | wrap (msg : String) (inner : GoError)
deriving DecidableEq, Repr

/-- NewError creates an `Error` with the provided status code and
message. -/
def NewError (status : Int) (message : String) : Error :=
  { StatusCode := status, Message := message }

/-- The `Error() string` method of the rhttp `Error`: formats
`"(code) message"`. -/
def Error.errorText (e : Error) : String :=
  "(" ++ toString e.StatusCode ++ ") " ++ e.Message

/-- The rendered message of a Go error value; a `%w` wrapper renders as
`"prefix: inner"`, matching `fmt.Errorf`. -/
def GoError.message : GoError → String
  | .typed e => e.errorText
  | .generic msg => msg
  | .wrap msg inner => msg ++ ": " ++ inner.message

/-- The `Is` method of `Error`: true iff the provided error is (a cast to
`*Error` succeeds on) a typed error with the same status code. -/
def Error.Is (e : Error) (err : Option GoError) : Bool :=
  match err with
  | some (.typed inst) => inst.StatusCode == e.StatusCode
  | _ => false

/-- The `HasStatusCode` method of `Error`: true iff the error has the
provided status code. -/
def Error.HasStatusCode (e : Error) (statusCode : Int) : Bool :=
  e.StatusCode == statusCode

/-- A reference held in an `httpClientInterface` field: the nil
interface, the lazily assigned default `&http.Client{}`, or a
caller-supplied implementation (identified by a tag; its behaviour is
interpreted by the environment). -/
inductive TransportRef where
  | nilT
  | defaultClient
  | custom (id : Nat)
deriving DecidableEq, Repr

/-- An outgoing `*http.Request` as far as this library observes it. -/
structure HttpRequest where
  Method : String
  URL : String
  Body : Option BodyStream
deriving DecidableEq, Repr

/-- An incoming `*http.Response` as far as this library observes it. -/
structure Response where
  StatusCode : Int
  Body : BodyStream
deriving DecidableEq, Repr

/-- The behaviour of the external collaborators: `http.NewRequest` and
the `Do` method of whatever transport a `TransportRef` denotes. Both
return Go-style `(value, error)` pairs. -/
structure Env where
  newRequest : String → String → Option BodyStream → Option HttpRequest × Option GoError
  ciDo : TransportRef → HttpRequest → Option Response × Option GoError

/-- The unexported `request` builder of the current client.go: transport
reference, sticky first error, method, target URL (already rendered as a
string), optional body, optional prepare callback. The callback is
modelled functionally: it receives the constructed outgoing request and
returns the (possibly mutated) request together with an optional error. -/
structure request where
  ci : TransportRef
  err : Option GoError
  method : String
  u : String
  reqbody : Option BodyStream
  prepareCB : Option (HttpRequest → HttpRequest × Option GoError)

/-- makeRequest instantiates a `request` with no body, no error and no
callback. -/
def makeRequest (ci : TransportRef) (method : String) (u : String) : request :=
  { ci := ci, err := none, method := method, u := u, reqbody := none, prepareCB := none }

/-- WithRequestBody sets the request body verbatim; it does nothing if
there is already an error preparing this request. -/
def request.WithRequestBody (r : request) (reqbody : Option BodyStream) : request :=
  match r.err with
  | some _ => r
  | none => { r with reqbody := reqbody }

/-- The message of the error EncodeJSON stores on serialization
failure. -/
def encodeBodyErrMsg (method u : String) : String :=
  "failed to encode body for \x27" ++ method ++ " " ++ u ++ "\x27"

/-- EncodeJSON: `encoded` is the outcome of running the external JSON
encoder on the provided value. On success the serialized bytes become the
body; on failure the first error is set to a wrapping error carrying the
method and URL, and the body is left unchanged. It does nothing if there
is already an error preparing this request. -/
def request.EncodeJSON (r : request) (encoded : Except GoError String) : request :=
  match r.err with
  | some _ => r
  | none =>
    match encoded with
    | .error e => { r with err := some (.wrap (encodeBodyErrMsg r.method r.u) e) }
    | .ok buf => { r with reqbody := some (.content buf) }

/-- Prepare of the unexported `request` variant: stores the callback
unconditionally (no first-error check in this variant) and returns the
same request. -/
def request.Prepare (r : request) (prepareCB : HttpRequest → HttpRequest × Option GoError) :
    request :=
  { r with prepareCB := some prepareCB }

/-- The `result` produced by `Do()`: back-pointer to the originating
request, optional response, optional error. -/
structure result where
  request : request
  response : Option Response
  err : Option GoError

/-- Message of the wrapping error when `http.NewRequest` fails. -/
def prepareReqErrMsg (method urlstr : String) : String :=
  "failed to prepare request for \x27" ++ method ++ " " ++ urlstr ++ "\x27"

/-- Message of the guard error when `http.NewRequest` returns a nil
request with a nil error. -/
def nonNilReqErrMsg (method urlstr : String) : String :=
  "expected a non-nil request for \x27" ++ method ++ " " ++ urlstr ++ "\x27"

/-- Message of the wrapping error when the prepare callback fails. -/
def prepareCBErrMsg (method urlstr : String) : String :=
  "failed to execute the prepare callback for \x27" ++ method ++ " " ++ urlstr ++ "\x27"

/-- Message of the wrapping error when the transport `Do` fails; the URL
component is the URL of the constructed (possibly callback-mutated)
outgoing request. -/
def nonProtocolErrMsg (method urlv : String) : String :=
  "non-protocol request error for \x27" ++ method ++ " " ++ urlv ++ "\x27"

/-- Do executes the request: first-error short-circuit, outgoing request
construction, nil-request guard, optional prepare callback, then the
transport dispatch, exactly as in the source. -/
def request.Do (r : request) (env : Env) : result :=
  match r.err with
  | some e => { request := r, response := none, err := some e }
  | none =>
    let urlstr := r.u
    match env.newRequest r.method urlstr r.reqbody with
    | (_, some e) =>
      { request := r, response := none, err := some (.wrap (prepareReqErrMsg r.method urlstr) e) }
    | (none, none) =>
      { request := r, response := none, err := some (.generic (nonNilReqErrMsg r.method urlstr)) }
    | (some req, none) =>
      let dispatch : HttpRequest → result := fun outReq =>
        match env.ciDo r.ci outReq with
        | (_, some e) =>
          { request := r, response := none,
            err := some (.wrap (nonProtocolErrMsg r.method outReq.URL) e) }
        | (resp, none) =>
          { request := r, response := resp, err := none }
      match r.prepareCB with
      | some cb =>
        match cb req with
        | (_, some e) =>
          { request := r, response := none,
            err := some (.wrap (prepareCBErrMsg r.method urlstr) e) }
        | (mutated, none) => dispatch mutated
      | none => dispatch req

/-- The externally visible steps `Do` can take, in their source order. -/
inductive Step where
  | buildRequest
  | runPrepareCB
  | transportDo
deriving DecidableEq, Repr

/-- doTrace instruments `Do` with the list of steps it executes, in
order, following exactly the control flow of the source. -/
def request.doTrace (r : request) (env : Env) : List Step :=
  match r.err with
  | some _ => []
  | none =>
    match env.newRequest r.method r.u r.reqbody with
    | (_, some _) => [.buildRequest]
    | (none, none) => [.buildRequest]
    | (some req, none) =>
      match r.prepareCB with
      | some cb =>
        match cb req with
        | (_, some _) => [.buildRequest, .runPrepareCB]
        | (_, none) => [.buildRequest, .runPrepareCB, .transportDo]
      | none => [.buildRequest, .transportDo]

/-- Model of `ioutil.ReadAll` on a body stream: the full data on success,
or an error (with no usable data, as every caller in this library
discards the partial read on error). -/
def readAll : BodyStream → String × Option GoError
  | .content data => (data, none)
  | .failing emsg => ("", some (.generic emsg))

/-- The synthetic message substituted by checkStatus when reading an
error-status body fails. -/
def readBodyFailMsg (method u : String) (e : GoError) : String :=
  "Failed to read response body for \x27" ++ method ++ " " ++ u ++ "\x27: " ++ e.message

/-- checkStatus translates any response with status code at least 400
into a typed `Error` whose message is the full body text (or the
synthetic read-failure message); responses below 400 pass. -/
def checkStatus (req : request) (resp : Response) : Option GoError :=
  if 400 ≤ resp.StatusCode then
    let message : String :=
      match readAll resp.Body with
      | (_, some e) => readBodyFailMsg req.method req.u e
      | (data, none) => data
    some (.typed (NewError resp.StatusCode message))
  else
    none

/-- The guard message for a nil response with a nil error. -/
def nonNilRespErrMsg (method u : String) : String :=
  "expected a non-nil response for \x27" ++ method ++ " " ++ u ++ "\x27"

/-- Response (terminal operation of `result`): returns the raw response
after the error check, the nil-response guard and the status check; on a
status error the response is not returned. -/
def result.Response (r : result) : Option Rhttp.Response × Option GoError :=
  match r.err with
  | some e => (none, some e)
  | none =>
    match r.response with
    | none => (none, some (.generic (nonNilRespErrMsg r.request.method r.request.u)))
    | some resp =>
      match checkStatus r.request resp with
      | some e => (none, some e)
      | none => (some resp, none)

/-- Message of the wrapping error when RawBytes fails to read the
body. -/
def readRespFailMsg (method u : String) : String :=
  "failed to read response body for \x27" ++ method ++ " " ++ u ++ "\x27"

/-- RawBytes of the unexported `result` variant: error check,
nil-response guard, status check (returning the response alongside the
typed error), then a full body read. -/
def result.RawBytes (r : result) : Option Rhttp.Response × Option String × Option GoError :=
  match r.err with
  | some e => (none, none, some e)
  | none =>
    match r.response with
    | none => (none, none, some (.generic (nonNilRespErrMsg r.request.method r.request.u)))
    | some resp =>
      match checkStatus r.request resp with
      | some e => (some resp, none, some e)
      | none =>
        match readAll resp.Body with
        | (respbody, none) => (some resp, some respbody, none)
        | (_, some e) =>
          (some resp, none, some (.wrap (readRespFailMsg r.request.method r.request.u) e))

/-- Message of the error DecodeJSON returns on a nil destination. -/
def nilDestErrMsg (method u : String) : String :=
  "decode destination was nil for \x27" ++ method ++ " " ++ u ++ "\x27"

/-- Message of the wrapping error when the JSON decode fails. -/
def decodeFailMsg (method u : String) : String :=
  "failed to decode the response body for \x27" ++ method ++ " " ++ u ++ "\x27"

/-- DecodeJSON: error check, nil-response guard, status check (returning
the response alongside the typed error), nil-destination guard, then the
external JSON decode. `vNil` is whether the destination is nil; `dec` is
the external decoder applied to the body for that destination. -/
def result.DecodeJSON (r : result) (vNil : Bool) (dec : BodyStream → Option GoError) :
    Option Rhttp.Response × Option GoError :=
  match r.err with
  | some e => (none, some e)
  | none =>
    match r.response with
    | none => (none, some (.generic (nonNilRespErrMsg r.request.method r.request.u)))
    | some resp =>
      match checkStatus r.request resp with
      | some e => (some resp, some e)
      | none =>
        if vNil then
          (some resp, some (.generic (nilDestErrMsg r.request.method r.request.u)))
        else
          match dec resp.Body with
          | some e => (some resp, some (.wrap (decodeFailMsg r.request.method r.request.u) e))
          | none => (some resp, none)

/-- The exported `Request` of the second builder variant; its record
shape is identical to `request`. -/
abbrev Request := request

/-- The exported `Result` of the second builder variant; its record shape
is identical to `result`. -/
abbrev Result := result

/-- Prepare of the exported `Request` variant: on an already-failed
request it returns the nil handle; otherwise it stores the callback and
returns the request. -/
def Request.Prepare (r : Request) (prepareCB : HttpRequest → HttpRequest × Option GoError) :
    Option Request :=
  match r.err with
  | some _ => none
  | none => some { r with prepareCB := some prepareCB }

/-- Message of the wrapping error when StreamResponse fails to copy the
body into the destination writer. -/
def copyFailMsg (method u : String) : String :=
  "failed to copy response to destination for \x27" ++ method ++ " " ++ u ++ "\x27"

/-- StreamResponse of the exported `Result` variant: error check,
nil-response guard, status check (returning the response alongside the
typed error), then an `io.Copy` of the body into the destination writer.
The middle component is the data written to the destination. -/
def Result.StreamResponse (r : Result) : Option Rhttp.Response × String × Option GoError :=
  match r.err with
  | some e => (none, "", some e)
  | none =>
    match r.response with
    | none => (none, "", some (.generic (nonNilRespErrMsg r.request.method r.request.u)))
    | some resp =>
      match checkStatus r.request resp with
      | some e => (some resp, "", some e)
      | none =>
        match readAll resp.Body with
        | (written, none) => (some resp, written, none)
        | (_, some e) =>
          (some resp, "", some (.wrap (copyFailMsg r.request.method r.request.u) e))

/-- RawBytes of the exported `Result` variant: error check, then
delegation to StreamResponse with a fresh buffer; the buffer content is
only returned when no error occurred. -/
def Result.RawBytes (r : Result) : Option Rhttp.Response × Option String × Option GoError :=
  match r.err with
  | some e => (none, none, some e)
  | none =>
    match r.StreamResponse with
    | (response, _, some e) => (response, none, some e)
    | (response, written, none) => (response, some written, none)

/-- Response of the exported `Result` variant (textually identical to the
unexported variant). -/
def Result.Response (r : Result) : Option Rhttp.Response × Option GoError :=
  match r.err with
  | some e => (none, some e)
  | none =>
    match r.response with
    | none => (none, some (.generic (nonNilRespErrMsg r.request.method r.request.u)))
    | some resp =>
      match checkStatus r.request resp with
      | some e => (none, some e)
      | none => (some resp, none)

/-- DecodeJSON of the exported `Result` variant (textually identical to
the unexported variant). -/
def Result.DecodeJSON (r : Result) (vNil : Bool) (dec : BodyStream → Option GoError) :
    Option Rhttp.Response × Option GoError :=
  match r.err with
  | some e => (none, some e)
  | none =>
    match r.response with
    | none => (none, some (.generic (nonNilRespErrMsg r.request.method r.request.u)))
    | some resp =>
      match checkStatus r.request resp with
      | some e => (some resp, some e)
      | none =>
        if vNil then
          (some resp, some (.generic (nilDestErrMsg r.request.method r.request.u)))
        else
          match dec resp.Body with
          | some e => (some resp, some (.wrap (decodeFailMsg r.request.method r.request.u) e))
          | none => (some resp, none)

/-- The Client: a wrapper around an inner transport interface value. -/
structure Client where
  ci : TransportRef
deriving DecidableEq, Repr

/-- NewClient vends a Client wrapping the provided interface value. -/
def NewClient (c : TransportRef) : Client :=
  { ci := c }

/-- lazyInitialize assigns the default `&http.Client{}` if no transport
is set already. -/
def Client.lazyInitialize (c : Client) : Client :=
  match c.ci with
  | .nilT => { ci := .defaultClient }
  | _ => c

/-- NewRequest lazily initializes the transport and creates a request
bound to it; the updated Client models the in-place mutation of the
receiver. -/
def Client.NewRequest (c : Client) (method : String) (u : String) : Client × request :=
  let c2 := c.lazyInitialize
  (c2, makeRequest c2.ci method u)

/-- The HTTP method name constants of `net/http` used by the verb
sugar. -/
def MethodGet : String := "GET"

/-- The HEAD method name constant. -/
def MethodHead : String := "HEAD"

/-- The POST method name constant. -/
def MethodPost : String := "POST"

/-- The PUT method name constant. -/
def MethodPut : String := "PUT"

/-- The PATCH method name constant. -/
def MethodPatch : String := "PATCH"

/-- The DELETE method name constant. -/
def MethodDelete : String := "DELETE"

/-- GET is sugar for NewRequest with the GET method. -/
def Client.GET (c : Client) (u : String) : Client × request :=
  c.NewRequest MethodGet u

/-- HEAD is sugar for NewRequest with the HEAD method. -/
def Client.HEAD (c : Client) (u : String) : Client × request :=
  c.NewRequest MethodHead u

/-- POST is sugar for NewRequest with the POST method. -/
def Client.POST (c : Client) (u : String) : Client × request :=
  c.NewRequest MethodPost u

/-- PUT is sugar for NewRequest with the PUT method. -/
def Client.PUT (c : Client) (u : String) : Client × request :=
  c.NewRequest MethodPut u

/-- PATCH is sugar for NewRequest with the PATCH method. -/
def Client.PATCH (c : Client) (u : String) : Client × request :=
  c.NewRequest MethodPatch u

/-- DELETE is sugar for NewRequest with the DELETE method. -/
def Client.DELETE (c : Client) (u : String) : Client × request :=
  c.NewRequest MethodDelete u

/-- requestChain folds a sequence of Request-creating calls over a
Client, returning the final Client and the created requests in order. -/
def requestChain (c : Client) : List (String × String) → Client × List request
  | [] => (c, [])
  | (m, u) :: rest =>
    let cr := c.NewRequest m u
    let tail := requestChain cr.1 rest
    (tail.1, cr.2 :: tail.2)

/-- A sample generic error used as a concrete input. -/
def egErr : GoError := .generic ("boom")

/-- A concrete request whose first error is already set. -/
def failedReq : request :=
  { ci := .custom 0, err := some egErr, method := MethodGet, u := "http://x",
    reqbody := none, prepareCB := none }

/-- A concrete fresh request with no error, body or callback. -/
def plainReq : request :=
  makeRequest (.custom 0) MethodGet ("http://x")

/-- A callback that mutates nothing and succeeds. -/
def idCB : HttpRequest → HttpRequest × Option GoError :=
  fun req => (req, none)

/-- A callback that mutates nothing and fails with the sample error. -/
def failCB : HttpRequest → HttpRequest × Option GoError :=
  fun req => (req, some egErr)

/-- A concrete fresh request carrying the failing prepare callback. -/
def prepFailReq : request :=
  { ci := .custom 0, err := none, method := MethodGet, u := "http://x",
    reqbody := none, prepareCB := some failCB }

/-- An environment whose request constructor succeeds and whose every
transport returns a 200 response with a readable body. -/
def okEnv : Env :=
  { newRequest := fun m u b => (some { Method := m, URL := u, Body := b }, none),
    ciDo := fun _ _ => (some { StatusCode := 200, Body := .content ("ok") }, none) }

/-- An environment whose request constructor succeeds but whose transport
returns a nil response together with a nil error (the behaviour the
repository's own mock `respondWithNil` exhibits). -/
def nilNilEnv : Env :=
  { newRequest := fun m u b => (some { Method := m, URL := u, Body := b }, none),
    ciDo := fun _ _ => (none, none) }

/-- A concrete result carrying a 400 response with a readable body. -/
def res400 : result :=
  { request := plainReq,
    response := some { StatusCode := 400, Body := .content ("Bad Request") },
    err := none }

/-- A concrete result carrying a 200 response with a readable body. -/
def res200 : result :=
  { request := plainReq,
    response := some { StatusCode := 200, Body := .content ("ok") },
    err := none }

/-- C8: the `Is` method returns true exactly when the other error is a
typed `Error` with an equal status code, irrespective of either message,
and `HasStatusCode` returns true exactly when the status code equals the
provided code. -/
theorem error_is_iff_equal_statusCode (e : Error) (err : Option GoError) (code : Int) :
    (e.Is err = true ↔ ∃ inst : Error, err = some (.typed inst) ∧ inst.StatusCode = e.StatusCode)
    ∧ (e.HasStatusCode code = true ↔ e.StatusCode = code) := by
  constructor
  · constructor
    · intro h
      cases err with
      | none => simp [Error.Is] at h
      | some g =>
        cases g with
        | typed inst =>
          refine ⟨inst, rfl, ?_⟩
          simpa [Error.Is] using h
        | generic m => simp [Error.Is] at h
        | wrap m inner => simp [Error.Is] at h
    · rintro ⟨inst, rfl, hsc⟩
      simp [Error.Is, hsc]
  · simp [Error.HasStatusCode]

/-- Witness for C8: a typed 404 error with a different message matches,
and the status-code check holds, at concrete inputs. -/
theorem error_is_iff_equal_statusCode_witness :
    (Error.Is (NewError 404 ("a")) (some (.typed (NewError 404 ("b")))) = true)
    ∧ (Error.HasStatusCode (NewError 404 ("a")) 404 = true) :=
  ⟨(error_is_iff_equal_statusCode (NewError 404 ("a"))
      (some (.typed (NewError 404 ("b")))) 404).1.mpr ⟨NewError 404 ("b"), rfl, rfl⟩,
   (error_is_iff_equal_statusCode (NewError 404 ("a"))
      (some (.typed (NewError 404 ("b")))) 404).2.mpr rfl⟩

/-- C2: once the first error is set on a request, WithRequestBody and
EncodeJSON return the request unchanged, Do yields a failed result
carrying exactly that first error, and the executed-step trace is empty,
so in particular the transport is never invoked, whatever the
environment. -/
theorem sticky_error_short_circuits (r : request) (e : GoError) (h : r.err = some e) :
    (∀ b, r.WithRequestBody b = r)
    ∧ (∀ enc, r.EncodeJSON enc = r)
    ∧ (∀ env, r.Do env = { request := r, response := none, err := some e })
    ∧ (∀ env, r.doTrace env = []) := by
  refine ⟨?_, ?_, ?_, ?_⟩
  · intro b
    simp [request.WithRequestBody, h]
  · intro enc
    simp [request.EncodeJSON, h]
  · intro env
    simp [request.Do, h]
  · intro env
    simp [request.doTrace, h]

/-- Witness for C2 at a concrete failed request and environment. -/
theorem sticky_error_short_circuits_witness :
    failedReq.err = some egErr
    ∧ failedReq.WithRequestBody none = failedReq
    ∧ failedReq.EncodeJSON (.ok ("x")) = failedReq
    ∧ failedReq.Do okEnv = { request := failedReq, response := none, err := some egErr }
    ∧ failedReq.doTrace okEnv = [] :=
  ⟨rfl, (sticky_error_short_circuits failedReq egErr rfl).1 none,
   (sticky_error_short_circuits failedReq egErr rfl).2.1 (.ok ("x")),
   (sticky_error_short_circuits failedReq egErr rfl).2.2.1 okEnv,
   (sticky_error_short_circuits failedReq egErr rfl).2.2.2 okEnv⟩

/-- C5 counterexample: in the exported variant, Prepare on a request
whose first error is already set returns the nil handle, not the
unchanged request. -/
theorem prepare_on_failed_returns_nil_handle :
    Request.Prepare failedReq idCB = none := rfl

/-- C5 (amended): in the unexported variant, Prepare always stores the
callback and returns the same request with its stored error and body
unchanged; in the exported variant, Prepare on an already-failed request
returns the nil handle, and otherwise stores the callback and returns the
request. -/
theorem prepare_variant_behaviour (r : request)
    (cb : HttpRequest → HttpRequest × Option GoError) :
    (r.Prepare cb = { r with prepareCB := some cb }
      ∧ (r.Prepare cb).err = r.err ∧ (r.Prepare cb).reqbody = r.reqbody)
    ∧ (∀ e, r.err = some e → Request.Prepare r cb = none)
    ∧ (r.err = none → Request.Prepare r cb = some { r with prepareCB := some cb }) := by
  refine ⟨⟨rfl, rfl, rfl⟩, ?_, ?_⟩
  · intro e he
    simp [Request.Prepare, he]
  · intro he
    simp [Request.Prepare, he]

/-- Witness for C5 at a concrete failed request. -/
theorem prepare_variant_behaviour_witness :
    failedReq.err = some egErr ∧ Request.Prepare failedReq idCB = none :=
  ⟨rfl, (prepare_variant_behaviour failedReq idCB).2.1 egErr rfl⟩

/-- C6: EncodeJSON on an error-free request sets the serialized bytes as
the body on success; on serialization failure it leaves the body
unchanged and sets the first error to a wrapping error whose message
contains the request method and URL; on a request whose first error is
set it returns the request unchanged. -/
theorem encodeJSON_behaviour (r : request) (enc : Except GoError String) :
    (∀ e0, r.err = some e0 → r.EncodeJSON enc = r)
    ∧ (r.err = none → ∀ buf, enc = .ok buf →
        r.EncodeJSON enc = { r with reqbody := some (.content buf) })
    ∧ (r.err = none → ∀ e, enc = .error e →
        r.EncodeJSON enc = { r with err := some (.wrap (encodeBodyErrMsg r.method r.u) e) }
        ∧ (r.EncodeJSON enc).reqbody = r.reqbody
        ∧ ∃ pre mid post, (GoError.wrap (encodeBodyErrMsg r.method r.u) e).message =
            pre ++ r.method ++ mid ++ r.u ++ post) := by
  refine ⟨?_, ?_, ?_⟩
  · intro e0 he
    simp [request.EncodeJSON, he]
  · intro he buf henc
    subst henc
    simp [request.EncodeJSON, he]
  · intro he e henc
    subst henc
    refine ⟨by simp [request.EncodeJSON, he], by simp [request.EncodeJSON, he], ?_⟩
    refine ⟨"failed to encode body for \x27", " ", "\x27: " ++ e.message, ?_⟩
    simp [GoError.message, encodeBodyErrMsg, String.append_assoc]

/-- Witness for C6 at a concrete fresh request, for both the success and
the failure outcome of the external encoder. -/
theorem encodeJSON_behaviour_witness :
    plainReq.err = none
    ∧ plainReq.EncodeJSON (.ok ("x")) = { plainReq with reqbody := some (.content ("x")) }
    ∧ plainReq.EncodeJSON (.error egErr)
        = { plainReq with err := some (.wrap (encodeBodyErrMsg plainReq.method plainReq.u) egErr) } :=
  ⟨rfl, (encodeJSON_behaviour plainReq (.ok ("x"))).2.1 rfl ("x") rfl,
   ((encodeJSON_behaviour plainReq (.error egErr)).2.2 rfl egErr rfl).1⟩

/-- Helper: on a Client whose transport is already set, a Request-creating
call leaves the Client unchanged and binds the request to its transport. -/
theorem newRequest_stable (c : Client) (h : c.ci ≠ .nilT) (m u : String) :
    c.NewRequest m u = (c, makeRequest c.ci m u) := by
  cases c with
  | mk ci =>
    cases ci with
    | nilT => exact absurd rfl h
    | defaultClient => rfl
    | custom id => rfl

/-- Helper: folding Request-creating calls over a Client whose transport
is already set never changes the Client, and every created request is
bound to that same transport value. -/
theorem requestChain_stable (calls : List (String × String)) :
    ∀ c : Client, c.ci ≠ .nilT →
      (requestChain c calls).1 = c
      ∧ ∀ r ∈ (requestChain c calls).2, r.ci = c.ci := by
  induction calls with
  | nil =>
    intro c h
    exact ⟨rfl, by simp [requestChain]⟩
  | cons p rest ih =>
    intro c h
    obtain ⟨m, u⟩ := p
    obtain ⟨h1, h2⟩ := ih c h
    simp only [requestChain, newRequest_stable c h m u]
    refine ⟨h1, ?_⟩
    intro r hr
    simp only [List.mem_cons] at hr
    rcases hr with hr | hr
    · subst hr
      rfl
    · exact h2 r hr

/-- C9: a Client built with the nil transport keeps it absent until the
first Request-creating call; that call assigns the default transport to
the Client and to the created request; any Request-creating call on a
Client whose transport is set leaves the Client unchanged; hence all
later created requests share the one assigned transport value; and every
verb helper is sugar for NewRequest with its method constant. -/
theorem lazy_transport_assignment (c : Client) (m u : String)
    (calls : List (String × String)) (h : c.ci = .nilT) :
    (NewClient .nilT).ci = .nilT
    ∧ (c.NewRequest m u).1.ci = .defaultClient
    ∧ (c.NewRequest m u).2.ci = .defaultClient
    ∧ (∀ c2 : Client, c2.ci ≠ .nilT → ∀ m2 u2,
        (c2.NewRequest m2 u2).1 = c2 ∧ (c2.NewRequest m2 u2).2.ci = c2.ci)
    ∧ (requestChain (c.NewRequest m u).1 calls).1 = (c.NewRequest m u).1
    ∧ (∀ r ∈ (requestChain (c.NewRequest m u).1 calls).2, r.ci = (c.NewRequest m u).2.ci)
    ∧ (c.GET u = c.NewRequest MethodGet u ∧ c.HEAD u = c.NewRequest MethodHead u
       ∧ c.POST u = c.NewRequest MethodPost u ∧ c.PUT u = c.NewRequest MethodPut u
       ∧ c.PATCH u = c.NewRequest MethodPatch u ∧ c.DELETE u = c.NewRequest MethodDelete u) := by
  cases c with
  | mk ci =>
    cases h
    have hset : (Client.NewRequest ⟨.nilT⟩ m u).1.ci = .defaultClient := rfl
    have hne : (Client.NewRequest ⟨.nilT⟩ m u).1.ci ≠ TransportRef.nilT := by
      rw [hset]
      intro hx
      cases hx
    obtain ⟨hc1, hc2⟩ := requestChain_stable calls (Client.NewRequest ⟨.nilT⟩ m u).1 hne
    refine ⟨rfl, rfl, rfl, ?_, hc1, ?_, rfl, rfl, rfl, rfl, rfl, rfl⟩
    · intro c2 h2 m2 u2
      rw [newRequest_stable c2 h2 m2 u2]
      exact ⟨rfl, rfl⟩
    · intro r hr
      exact (hc2 r hr).trans hset

/-- Witness for C9 at a concrete nil-transport Client and a two-call
continuation. -/
theorem lazy_transport_assignment_witness :
    (NewClient .nilT).ci = .nilT
    ∧ ((NewClient .nilT).NewRequest MethodGet ("http://x")).1.ci = .defaultClient
    ∧ ((NewClient .nilT).NewRequest MethodGet ("http://x")).2.ci = .defaultClient :=
  ⟨(lazy_transport_assignment (NewClient .nilT) MethodGet ("http://x") [] rfl).1,
   (lazy_transport_assignment (NewClient .nilT) MethodGet ("http://x") [] rfl).2.1,
   (lazy_transport_assignment (NewClient .nilT) MethodGet ("http://x") [] rfl).2.2.1⟩

/-- Helper: every result produced by Do is either a failure with an
absent response, or carries exactly the pair the transport returned for
some dispatched outgoing request, with a nil transport error. -/
theorem do_shape (r : request) (env : Env) :
    (∃ e, r.Do env = { request := r, response := none, err := some e })
    ∨ (∃ out, (env.ciDo r.ci out).2 = none
        ∧ r.Do env = { request := r, response := (env.ciDo r.ci out).1, err := none }) := by
  cases herr : r.err with
  | some e =>
    exact Or.inl ⟨e, by simp [request.Do, herr]⟩
  | none =>
    cases hnr : env.newRequest r.method r.u r.reqbody with
    | mk o1 o2 =>
      cases o2 with
      | some e =>
        exact Or.inl ⟨.wrap (prepareReqErrMsg r.method r.u) e, by simp [request.Do, herr, hnr]⟩
      | none =>
        cases o1 with
        | none =>
          exact Or.inl ⟨.generic (nonNilReqErrMsg r.method r.u), by simp [request.Do, herr, hnr]⟩
        | some req =>
          cases hcb : r.prepareCB with
          | some cb =>
            cases hcbv : cb req with
            | mk mutated cberr =>
              cases cberr with
              | some e =>
                exact Or.inl ⟨.wrap (prepareCBErrMsg r.method r.u) e,
                  by simp [request.Do, herr, hnr, hcb, hcbv]⟩
              | none =>
                cases hdo : env.ciDo r.ci mutated with
                | mk ro eo =>
                  cases eo with
                  | some e =>
                    exact Or.inl ⟨.wrap (nonProtocolErrMsg r.method mutated.URL) e,
                      by simp [request.Do, herr, hnr, hcb, hcbv, hdo]⟩
                  | none =>
                    refine Or.inr ⟨mutated, by simp [hdo], ?_⟩
                    simp [request.Do, herr, hnr, hcb, hcbv, hdo]
          | none =>
            cases hdo : env.ciDo r.ci req with
            | mk ro eo =>
              cases eo with
              | some e =>
                exact Or.inl ⟨.wrap (nonProtocolErrMsg r.method req.URL) e,
                  by simp [request.Do, herr, hnr, hcb, hdo]⟩
              | none =>
                refine Or.inr ⟨req, by simp [hdo], ?_⟩
                simp [request.Do, herr, hnr, hcb, hdo]

/-- C1 counterexample: a transport whose Do returns a nil response with a
nil error (the repository's own mock `respondWithNil` does) produces a
reachable Result with neither a response nor an error. -/
theorem exclusivity_counterexample :
    (plainReq.Do nilNilEnv).response = none ∧ (plainReq.Do nilNilEnv).err = none :=
  ⟨rfl, rfl⟩

/-- C1 (amended): no Result produced by Do has both a response and an
error, and provided the transport's Do always returns a non-nil response
or a non-nil error, exactly one of the two is present; the only
exception is a transport returning neither, which yields a Result with
neither. -/
theorem response_error_exclusivity (r : request) (env : Env) :
    (¬(((r.Do env).response.isSome = true) ∧ ((r.Do env).err.isSome = true)))
    ∧ ((∀ tr req, (env.ciDo tr req).1.isSome = true ∨ (env.ciDo tr req).2.isSome = true) →
        ((r.Do env).response.isSome = true ↔ ¬((r.Do env).err.isSome = true))) := by
  rcases do_shape r env with ⟨e, hE⟩ | ⟨out, hdo, hE⟩
  · rw [hE]
    constructor
    · rintro ⟨h1, _⟩
      simp at h1
    · intro _
      simp
  · rw [hE]
    constructor
    · rintro ⟨_, h2⟩
      simp at h2
    · intro hwb
      rcases hwb r.ci out with hs | hs
      · simp [hs]
      · rw [hdo] at hs
        simp at hs

/-- Witness for C1 at a concrete request and a well-behaved concrete
environment. -/
theorem response_error_exclusivity_witness :
    ((plainReq.Do okEnv).response.isSome = true ↔ ¬((plainReq.Do okEnv).err.isSome = true)) :=
  (response_error_exclusivity plainReq okEnv).2 (fun _ _ => Or.inl rfl)

/-- C4: with no pre-existing first error, the steps Do executes form one
of the four order-respecting traces of build, prepare-callback, dispatch,
with no step ever occurring twice; a prepare-callback error yields the
wrapped failed result with the dispatch step never reached; and whenever
Do succeeds the transport was dispatched exactly once. -/
theorem strict_do_sequence (r : request) (env : Env) (h : r.err = none) :
    (r.doTrace env = [.buildRequest]
     ∨ r.doTrace env = [.buildRequest, .runPrepareCB]
     ∨ r.doTrace env = [.buildRequest, .runPrepareCB, .transportDo]
     ∨ r.doTrace env = [.buildRequest, .transportDo])
    ∧ (∀ s : Step, (r.doTrace env).count s ≤ 1)
    ∧ (∀ req cb e, env.newRequest r.method r.u r.reqbody = (some req, none) →
        r.prepareCB = some cb → (cb req).2 = some e →
        r.Do env = { request := r, response := none,
                     err := some (.wrap (prepareCBErrMsg r.method r.u) e) }
        ∧ r.doTrace env = [.buildRequest, .runPrepareCB])
    ∧ ((r.Do env).err = none → (r.doTrace env).count Step.transportDo = 1) := by
  have htr : (r.doTrace env = [.buildRequest]
      ∨ r.doTrace env = [.buildRequest, .runPrepareCB]
      ∨ r.doTrace env = [.buildRequest, .runPrepareCB, .transportDo]
      ∨ r.doTrace env = [.buildRequest, .transportDo]) := by
    cases hnr : env.newRequest r.method r.u r.reqbody with
    | mk o1 o2 =>
      cases o2 with
      | some e0 =>
        exact Or.inl (by simp [request.doTrace, h, hnr])
      | none =>
        cases o1 with
        | none =>
          exact Or.inl (by simp [request.doTrace, h, hnr])
        | some req =>
          cases hcb : r.prepareCB with
          | none =>
            exact Or.inr (Or.inr (Or.inr (by simp [request.doTrace, h, hnr, hcb])))
          | some cb =>
            cases hcbv : cb req with
            | mk mutated cberr =>
              cases cberr with
              | some e0 =>
                exact Or.inr (Or.inl (by simp [request.doTrace, h, hnr, hcb, hcbv]))
              | none =>
                exact Or.inr (Or.inr (Or.inl (by simp [request.doTrace, h, hnr, hcb, hcbv])))
  refine ⟨htr, ?_, ?_, ?_⟩
  · intro s
    rcases htr with h1 | h1 | h1 | h1 <;> rw [h1] <;> cases s <;> decide
  · intro req cb e hreq hcbh hcbe
    cases hcbv : cb req with
    | mk mutated cberr =>
      have he2 : cberr = some e := by
        rw [hcbv] at hcbe
        exact hcbe
      subst he2
      constructor
      · simp [request.Do, h, hreq, hcbh, hcbv]
      · simp [request.doTrace, h, hreq, hcbh, hcbv]
  · intro hde
    cases hnr : env.newRequest r.method r.u r.reqbody with
    | mk o1 o2 =>
      cases o2 with
      | some e0 =>
        simp [request.Do, h, hnr] at hde
      | none =>
        cases o1 with
        | none =>
          simp [request.Do, h, hnr] at hde
        | some req =>
          cases hcb : r.prepareCB with
          | none =>
            have htrace : r.doTrace env = [Step.buildRequest, Step.transportDo] := by
              simp [request.doTrace, h, hnr, hcb]
            rw [htrace]
            decide
          | some cb =>
            cases hcbv : cb req with
            | mk mutated cberr =>
              cases cberr with
              | some e0 =>
                simp [request.Do, h, hnr, hcb, hcbv] at hde
              | none =>
                have htrace : r.doTrace env
                    = [Step.buildRequest, Step.runPrepareCB, Step.transportDo] := by
                  simp [request.doTrace, h, hnr, hcb, hcbv]
                rw [htrace]
                decide

/-- Witness for C4 at a concrete request whose prepare callback fails,
in a concrete environment. -/
theorem strict_do_sequence_witness :
    prepFailReq.err = none
    ∧ okEnv.newRequest prepFailReq.method prepFailReq.u prepFailReq.reqbody
        = (some { Method := MethodGet, URL := "http://x", Body := none }, none)
    ∧ prepFailReq.prepareCB = some failCB
    ∧ (failCB { Method := MethodGet, URL := "http://x", Body := none }).2 = some egErr
    ∧ prepFailReq.Do okEnv = { request := prepFailReq, response := none,
                               err := some (.wrap (prepareCBErrMsg prepFailReq.method prepFailReq.u) egErr) }
    ∧ prepFailReq.doTrace okEnv = [.buildRequest, .runPrepareCB] :=
  ⟨rfl, rfl, rfl, rfl,
   ((strict_do_sequence prepFailReq okEnv rfl).2.2.1
      { Method := MethodGet, URL := "http://x", Body := none } failCB egErr rfl rfl rfl).1,
   ((strict_do_sequence prepFailReq okEnv rfl).2.2.1
      { Method := MethodGet, URL := "http://x", Body := none } failCB egErr rfl rfl rfl).2⟩

/-- C3: on a result holding a response with status at least 400, every
terminal operation of the unexported variant returns a typed Error built
from the status code and the full body text, or a synthetic read-failure
message naming the request when the body read fails; the body bytes are
not returned and the decode primitive is never consulted. -/
theorem status_translation (res : result) (resp : Response)
    (h1 : res.err = none) (h2 : res.response = some resp) (h3 : 400 ≤ resp.StatusCode) :
    (∀ data, resp.Body = .content data →
        res.Response = (none, some (.typed (NewError resp.StatusCode data)))
        ∧ res.RawBytes = (some resp, none, some (.typed (NewError resp.StatusCode data)))
        ∧ (∀ vNil dec, res.DecodeJSON vNil dec =
            (some resp, some (.typed (NewError resp.StatusCode data)))))
    ∧ (∀ emsg, resp.Body = .failing emsg →
        res.Response = (none, some (.typed (NewError resp.StatusCode
            (readBodyFailMsg res.request.method res.request.u (.generic emsg)))))
        ∧ res.RawBytes = (some resp, none, some (.typed (NewError resp.StatusCode
            (readBodyFailMsg res.request.method res.request.u (.generic emsg)))))
        ∧ (∀ vNil dec, res.DecodeJSON vNil dec = (some resp, some (.typed (NewError
            resp.StatusCode
            (readBodyFailMsg res.request.method res.request.u (.generic emsg))))))) := by
  constructor
  · intro data hbody
    have hcs : checkStatus res.request resp = some (.typed (NewError resp.StatusCode data)) := by
      unfold checkStatus
      rw [if_pos h3, hbody]
      rfl
    refine ⟨?_, ?_, ?_⟩
    · simp [result.Response, h1, h2, hcs]
    · simp [result.RawBytes, h1, h2, hcs]
    · intro vNil dec
      simp [result.DecodeJSON, h1, h2, hcs]
  · intro emsg hbody
    have hcs : checkStatus res.request resp = some (.typed (NewError resp.StatusCode
        (readBodyFailMsg res.request.method res.request.u (.generic emsg)))) := by
      unfold checkStatus
      rw [if_pos h3, hbody]
      rfl
    refine ⟨?_, ?_, ?_⟩
    · simp [result.Response, h1, h2, hcs]
    · simp [result.RawBytes, h1, h2, hcs]
    · intro vNil dec
      simp [result.DecodeJSON, h1, h2, hcs]

/-- Witness for C3 at a concrete 400-status result with a readable
body. -/
theorem status_translation_witness :
    res400.err = none
    ∧ res400.response = some { StatusCode := 400, Body := .content ("Bad Request") }
    ∧ (400 : Int) ≤ 400
    ∧ res400.Response = (none, some (.typed (NewError 400 ("Bad Request"))))
    ∧ res400.RawBytes
        = (some { StatusCode := 400, Body := .content ("Bad Request") }, none,
           some (.typed (NewError 400 ("Bad Request")))) :=
  ⟨rfl, rfl, by decide,
   ((status_translation res400 { StatusCode := 400, Body := .content ("Bad Request") }
      rfl rfl (by decide)).1 ("Bad Request") rfl).1,
   ((status_translation res400 { StatusCode := 400, Body := .content ("Bad Request") }
      rfl rfl (by decide)).1 ("Bad Request") rfl).2.1⟩

/-- C7: DecodeJSON with a nil destination always returns an error, its
outcome does not depend on the decode primitive (the decode is never
attempted), the exported variant behaves identically, and on an
error-free result with a below-400 response the error names the request
method and URL. -/
theorem nil_destination_always_errors (res : result) (dec dec2 : BodyStream → Option GoError) :
    ((res.DecodeJSON true dec).2.isSome = true)
    ∧ (res.DecodeJSON true dec = res.DecodeJSON true dec2)
    ∧ (Result.DecodeJSON res true dec = res.DecodeJSON true dec)
    ∧ (∀ resp, res.err = none → res.response = some resp → resp.StatusCode < 400 →
        res.DecodeJSON true dec =
          (some resp, some (.generic (nilDestErrMsg res.request.method res.request.u)))) := by
  refine ⟨?_, ?_, rfl, ?_⟩
  · cases herr : res.err with
    | some e =>
      simp [result.DecodeJSON, herr]
    | none =>
      cases hresp : res.response with
      | none =>
        simp [result.DecodeJSON, herr, hresp]
      | some resp =>
        cases hcs : checkStatus res.request resp with
        | some e =>
          simp [result.DecodeJSON, herr, hresp, hcs]
        | none =>
          simp [result.DecodeJSON, herr, hresp, hcs]
  · cases herr : res.err with
    | some e =>
      simp [result.DecodeJSON, herr]
    | none =>
      cases hresp : res.response with
      | none =>
        simp [result.DecodeJSON, herr, hresp]
      | some resp =>
        cases hcs : checkStatus res.request resp with
        | some e =>
          simp [result.DecodeJSON, herr, hresp, hcs]
        | none =>
          simp [result.DecodeJSON, herr, hresp, hcs]
  · intro resp herr hresp hlt
    have hcs : checkStatus res.request resp = none := by
      unfold checkStatus
      rw [if_neg (not_le.mpr hlt)]
    simp [result.DecodeJSON, herr, hresp, hcs]

/-- Witness for C7 at a concrete 200-status result. -/
theorem nil_destination_always_errors_witness :
    ((res200.DecodeJSON true (fun _ => none)).2.isSome = true)
    ∧ res200.err = none
    ∧ res200.response = some { StatusCode := 200, Body := .content ("ok") }
    ∧ ((200 : Int) < 400)
    ∧ res200.DecodeJSON true (fun _ => none)
        = (some { StatusCode := 200, Body := .content ("ok") },
           some (.generic (nilDestErrMsg res200.request.method res200.request.u))) :=
  ⟨(nil_destination_always_errors res200 (fun _ => none) (fun _ => none)).1, rfl, rfl, by decide,
   (nil_destination_always_errors res200 (fun _ => none) (fun _ => none)).2.2.2
     { StatusCode := 200, Body := .content ("ok") } rfl rfl (by decide)⟩

/-- C10: on a result of the exported variant holding a response with
status at least 400, StreamResponse, RawBytes and DecodeJSON return the
response alongside the typed status error (RawBytes with no bytes),
whereas Response returns a nil response together with the error. -/
theorem status_error_keeps_response (res : Result) (resp : Response)
    (h1 : res.err = none) (h2 : res.response = some resp) (h3 : 400 ≤ resp.StatusCode) :
    ((checkStatus res.request resp).isSome = true)
    ∧ Result.StreamResponse res = (some resp, "", checkStatus res.request resp)
    ∧ Result.RawBytes res = (some resp, none, checkStatus res.request resp)
    ∧ (∀ vNil dec, Result.DecodeJSON res vNil dec = (some resp, checkStatus res.request resp))
    ∧ Result.Response res = (none, checkStatus res.request resp) := by
  have hex : ∃ e, checkStatus res.request resp = some e := by
    unfold checkStatus
    rw [if_pos h3]
    exact ⟨_, rfl⟩
  obtain ⟨e, hcs⟩ := hex
  have hstream : Result.StreamResponse res = (some resp, "", some e) := by
    simp [Result.StreamResponse, h1, h2, hcs]
  refine ⟨by simp [hcs], by rw [hcs]; exact hstream, ?_, ?_, ?_⟩
  · have hrb : Result.RawBytes res = (some resp, none, some e) := by
      simp [Result.RawBytes, h1, hstream]
    rw [hcs]
    exact hrb
  · intro vNil dec
    rw [hcs]
    simp [Result.DecodeJSON, h1, h2, hcs]
  · rw [hcs]
    simp [Result.Response, h1, h2, hcs]

/-- Witness for C10 at a concrete 400-status result. -/
theorem status_error_keeps_response_witness :
    res400.err = none
    ∧ res400.response = some { StatusCode := 400, Body := .content ("Bad Request") }
    ∧ (400 : Int) ≤ 400
    ∧ Result.StreamResponse res400
        = (some { StatusCode := 400, Body := .content ("Bad Request") }, "",
           checkStatus res400.request { StatusCode := 400, Body := .content ("Bad Request") })
    ∧ Result.Response res400
        = (none, checkStatus res400.request { StatusCode := 400, Body := .content ("Bad Request") }) :=
  ⟨rfl, rfl, by decide,
   (status_error_keeps_response res400 { StatusCode := 400, Body := .content ("Bad Request") }
      rfl rfl (by decide)).2.1,
   (status_error_keeps_response res400 { StatusCode := 400, Body := .content ("Bad Request") }
      rfl rfl (by decide)).2.2.2.2⟩

end Rhttp
